import Mathlib

/-!
Shallow embedding of the ai-doorbell-server face pipeline: the data model
(Face, ExtractionJob with embedded clusters, Employee, Visitor, User), the
label-consensus operations, the verification and promotion operations, the
background extraction continuation, and the public registration operation,
together with theorems settling the specification claims about them.
-/

namespace Doorbell

abbrev UserId := Nat
abbrev OId := Nat
abbrev Bytes := Nat

inductive Role
  | admin
  | manager
  | user
deriving DecidableEq, Repr

structure Permissions where
  canVerifyFaces : Bool
  canManageUsers : Bool
  canManageAllFaces : Bool
  canViewAllData : Bool
deriving DecidableEq, Repr

structure AuthUser where
  uid : UserId
  role : Role
  permissions : Permissions
deriving DecidableEq, Repr

inductive VerificationStatus
  | unverified
  | verified
  | rejected
deriving DecidableEq, Repr

inductive PersonType
  | employee
  | visitor
  | unknown
deriving DecidableEq, Repr

inductive JobStatus
  | processing
  | completed
  | failed
deriving DecidableEq, Repr

inductive MediaKind
  | image
  | video
deriving DecidableEq, Repr

structure Proposal where
  label : String
  proposedBy : UserId
  proposedAt : Nat
  confidence : Nat
deriving DecidableEq, Repr

structure ImageRecord where
  data : Bytes
  contentType : String
deriving DecidableEq, Repr

structure Face where
  fid : OId
  primaryImage : Option ImageRecord
  additionalImages : List ImageRecord
  personType : PersonType
  personId : OId
  active : Bool
  verificationStatus : VerificationStatus
  uploadedBy : Option UserId
  verifiedBy : Option UserId
  verificationNote : String
  proposedLabels : List Proposal
  selectedLabel : Option String
deriving DecidableEq, Repr

structure Employee where
  eid : OId
  name : String
  faceId : Option OId
deriving DecidableEq, Repr

structure Visitor where
  vid : OId
  name : String
  faceId : Option OId
deriving DecidableEq, Repr

structure CropFace where
  imageUrl : String
  imageData : Bytes
  confidence : Nat
deriving DecidableEq, Repr

structure RepFace where
  imageUrl : String
  imageData : Option Bytes
deriving DecidableEq, Repr

structure Cluster where
  clusterId : String
  faces : List CropFace
  representativeFace : Option RepFace
  proposedLabels : List Proposal
  selectedLabel : Option String
deriving DecidableEq, Repr

structure FileRef where
  fileId : String
  fileName : String
  fileType : MediaKind
deriving DecidableEq, Repr

structure ExtractionJob where
  originalFile : FileRef
  uploadedBy : UserId
  facesCount : Nat
  clusters : List Cluster
  status : JobStatus
  processingMessage : String
  isLabeled : Bool
  sessionId : String
deriving DecidableEq, Repr

/-- The identity-store slice touched by label proposal, verification and
promotion: Face, Employee and Visitor collections plus a fresh-id counter
standing for ObjectId generation. -/
structure Store where
  faces : List Face
  employees : List Employee
  visitors : List Visitor
  nextId : OId
deriving DecidableEq, Repr

structure DB where
  store : Store
  job : ExtractionJob
deriving DecidableEq, Repr

inductive ApiError
  | badRequest
  | forbidden
  | notFound
  | missingLabel
  | transactionAborted
deriving DecidableEq, Repr

/-- Fault-injection switches for the two classes of persisted writes inside a
promotion transaction; a set flag makes the corresponding save throw, which
the route catches by aborting the transaction. -/
structure WriteFaults where
  personSaveFails : Bool
  faceSaveFails : Bool
deriving DecidableEq, Repr

def noFaults : WriteFaults := { personSaveFails := false, faceSaveFails := false }

/-- helpers.canUserAccessFace: admin, manager and canViewAllData read
everything; a basic user only reads faces they uploaded. -/
def canUserAccessFace (user : AuthUser) (face : Face) : Bool :=
  if user.role == .admin || user.role == .manager || user.permissions.canViewAllData then
    true
  else
    match face.uploadedBy with
    | some uploader => uploader == user.uid
    | none => false

/-- The per-proposer upsert both labeling routes perform: the first entry by
the same proposer is updated in place (label and timestamp), otherwise a new
entry is appended. -/
def upsertProposal (ps : List Proposal) (u : UserId) (l : String) (t : Nat) : List Proposal :=
  match ps with
  | [] => [{ label := l, proposedBy := u, proposedAt := t, confidence := 1 }]
  | p :: rest =>
    if p.proposedBy == u then
      { p with label := l, proposedAt := t } :: rest
    else
      p :: upsertProposal rest u l t

/-- Persisting a mutated Face document: the store holds one document per id,
so saving replaces the first (unique) entry carrying that id. -/
def replaceFirstFace (fid : OId) (face1 : Face) : List Face → List Face
  | [] => []
  | f :: rest =>
    if f.fid == fid then face1 :: rest
    else f :: replaceFirstFace fid face1 rest

/-- POST /faces/:id/propose-label. -/
def proposeFaceLabel (user : AuthUser) (faceId : OId) (label : Option String) (t : Nat)
    (st : Store) : Except ApiError Unit × Store :=
  match label with
  | none => (.error .badRequest, st)
  | some l =>
    match st.faces.find? (fun f => f.fid == faceId) with
    | none => (.error .notFound, st)
    | some face =>
      if !canUserAccessFace user face && !user.permissions.canVerifyFaces then
        (.error .forbidden, st)
      else
        let face1 := { face with proposedLabels := upsertProposal face.proposedLabels user.uid l t }
        (.ok (), { st with faces := replaceFirstFace faceId face1 st.faces })

/-- Access test shared by the extraction-job routes: uploader, canViewAllData,
admin or manager. -/
def canAccessJob (user : AuthUser) (j : ExtractionJob) : Bool :=
  j.uploadedBy == user.uid || user.permissions.canViewAllData
    || user.role == .admin || user.role == .manager

/-- The privileged-proposer test of the cluster-label route: admin, manager or
canVerifyFaces. -/
def isPrivileged (user : AuthUser) : Bool :=
  user.role == .admin || user.role == .manager || user.permissions.canVerifyFaces

/-- Effect of one cluster-label proposal on the target cluster: per-proposer
upsert, then privileged proposers also overwrite the cluster selectedLabel. -/
def clusterLabelUpdate (user : AuthUser) (l : String) (t : Nat) (c : Cluster) : Cluster :=
  let c1 := { c with proposedLabels := upsertProposal c.proposedLabels user.uid l t }
  if isPrivileged user then
    { c1 with selectedLabel := some l }
  else
    c1

/-- findIndex followed by in-place mutation: transform the first cluster with
the given id, none when absent. -/
def updateFirstCluster (f : Cluster → Cluster) (cid : String) : List Cluster → Option (List Cluster)
  | [] => none
  | c :: rest =>
    if c.clusterId == cid then
      some (f c :: rest)
    else
      (updateFirstCluster f cid rest).map (fun cs => c :: cs)

/-- POST /faces/extract/:id/cluster/:clusterId/label. -/
def proposeClusterLabel (user : AuthUser) (clusterId : String) (label : Option String) (t : Nat)
    (j : ExtractionJob) : Except ApiError Unit × ExtractionJob :=
  match label with
  | none => (.error .badRequest, j)
  | some l =>
    if !canAccessJob user j then
      (.error .forbidden, j)
    else
      match updateFirstCluster (clusterLabelUpdate user l t) clusterId j.clusters with
      | none => (.error .notFound, j)
      | some cs => (.ok (), { j with clusters := cs })

inductive Decision
  | verified
  | rejected
deriving DecidableEq, Repr

def decisionStatus : Decision → VerificationStatus
  | .verified => .verified
  | .rejected => .rejected

structure VerifyRequest where
  status : Option Decision
  selectedLabel : Option String
  personType : Option PersonType
  personId : Option OId
  note : Option String
  createNewPerson : Bool
deriving DecidableEq, Repr

/-- The verified-branch mutations of POST /faces/:id/verify: mandatory
selectedLabel, then either create a new Employee or Visitor named after the
label, or link an existing person, or leave the face unlinked. -/
def promoteDecision (req : VerifyRequest) (decision : Decision) (face1 : Face)
    (faults : WriteFaults) (st : Store) : Except ApiError (Face × Store) :=
  match decision with
  | .rejected => .ok (face1, st)
  | .verified =>
    match req.selectedLabel with
    | none => .error .missingLabel
    | some l =>
      let face2 := { face1 with selectedLabel := some l }
      if req.createNewPerson then
        match req.personType with
        | some .employee =>
          if faults.personSaveFails then .error .transactionAborted
          else
            let emp : Employee := { eid := st.nextId, name := l, faceId := some face2.fid }
            .ok ({ face2 with personType := .employee, personId := st.nextId },
                 { st with employees := st.employees ++ [emp], nextId := st.nextId + 1 })
        | some .visitor =>
          if faults.personSaveFails then .error .transactionAborted
          else
            let vis : Visitor := { vid := st.nextId, name := l, faceId := some face2.fid }
            .ok ({ face2 with personType := .visitor, personId := st.nextId },
                 { st with visitors := st.visitors ++ [vis], nextId := st.nextId + 1 })
        | _ => .error .badRequest
      else
        match req.personId with
        | some pid =>
          match req.personType with
          | some .employee =>
            if (st.employees.find? (fun e => e.eid == pid)).isSome then
              .ok ({ face2 with personType := .employee, personId := pid }, st)
            else .error .notFound
          | some .visitor =>
            if (st.visitors.find? (fun v => v.vid == pid)).isSome then
              .ok ({ face2 with personType := .visitor, personId := pid }, st)
            else .error .notFound
          | _ => .error .badRequest
        | none => .ok (face2, st)

/-- Transaction body of POST /faces/:id/verify: validate the decision, mutate
the face, run the verified-branch person writes, then save the face. -/
def verifyFaceTxn (user : AuthUser) (req : VerifyRequest) (faceId : OId) (faults : WriteFaults)
    (st : Store) : Except ApiError Store :=
  match req.status with
  | none => .error .badRequest
  | some decision =>
    match st.faces.find? (fun f => f.fid == faceId) with
    | none => .error .notFound
    | some face0 =>
      let face1 := { face0 with
        verificationStatus := decisionStatus decision,
        verifiedBy := some user.uid,
        verificationNote := req.note.getD "" }
      match promoteDecision req decision face1 faults st with
      | .error e => .error e
      | .ok (face2, st1) =>
        if faults.faceSaveFails then .error .transactionAborted
        else .ok { st1 with faces := replaceFirstFace faceId face2 st1.faces }

/-- POST /faces/:id/verify: the canVerifyFaces permission gate, then the
transaction; any error aborts the transaction and persists nothing. -/
def verifyFace (user : AuthUser) (req : VerifyRequest) (faceId : OId) (faults : WriteFaults)
    (st : Store) : Except ApiError Unit × Store :=
  if !user.permissions.canVerifyFaces then
    (.error .forbidden, st)
  else
    match verifyFaceTxn user req faceId faults st with
    | .ok st1 => (.ok (), st1)
    | .error e => (.error e, st)

/-- Identity resolution during completion: exact-name lookup across Employee
then Visitor; otherwise create a new Visitor named after the label, whose
faceId is initialised with a freshly generated placeholder ObjectId. -/
def resolvePerson (l : String) (faults : WriteFaults) (st : Store) :
    Except ApiError (PersonType × OId × Store) :=
  match st.employees.find? (fun e => e.name == l) with
  | some e => .ok (.employee, e.eid, st)
  | none =>
    match st.visitors.find? (fun v => v.name == l) with
    | some v => .ok (.visitor, v.vid, st)
    | none =>
      if faults.personSaveFails then .error .transactionAborted
      else
        let newVisitor : Visitor := { vid := st.nextId + 1, name := l, faceId := some st.nextId }
        .ok (.visitor, st.nextId + 1,
             { st with visitors := st.visitors ++ [newVisitor], nextId := st.nextId + 2 })

/-- The Face record created for a cluster during completion: representative
crop as primary image, up to four crops as secondary images, verified only
when the caller holds canVerifyFaces. -/
def mkPromotedFace (user : AuthUser) (t : Nat) (l : String) (repData : Bytes) (c : Cluster)
    (personType : PersonType) (personId : OId) (fid : OId) : Face :=
  { fid := fid,
    primaryImage := some { data := repData, contentType := "image/jpeg" },
    additionalImages := (c.faces.take 4).map
      (fun cf => { data := cf.imageData, contentType := "image/jpeg" }),
    personType := personType,
    personId := personId,
    active := true,
    verificationStatus := if user.permissions.canVerifyFaces then .verified else .unverified,
    uploadedBy := some user.uid,
    verifiedBy := none,
    verificationNote := "",
    proposedLabels := [{ label := l, proposedBy := user.uid, proposedAt := t, confidence := 1 }],
    selectedLabel := some l }

/-- One iteration of the completion loop: clusters without a selected label or
without representative crop data are skipped; otherwise resolve the person,
save the new Face, and run the guarded visitor faceId back-link update. -/
def promoteCluster (user : AuthUser) (t : Nat) (faults : WriteFaults) (st : Store) (c : Cluster) :
    Except ApiError Store :=
  match c.selectedLabel with
  | none => .ok st
  | some l =>
    match c.representativeFace with
    | none => .ok st
    | some rep =>
      match rep.imageData with
      | none => .ok st
      | some repData =>
        match resolvePerson l faults st with
        | .error e => .error e
        | .ok (personType, personId, st1) =>
          let newFace := mkPromotedFace user t l repData c personType personId st1.nextId
          if faults.faceSaveFails then .error .transactionAborted
          else
            let st2 := { st1 with faces := st1.faces ++ [newFace], nextId := st1.nextId + 1 }
            if personType == .visitor
               && !(st2.visitors.any (fun v => v.name == l && v.faceId.isSome)) then
              let linked := st2.visitors.map
                (fun v => if v.vid == personId then { v with faceId := some newFace.fid } else v)
              .ok { st2 with visitors := linked }
            else
              .ok st2

/-- Transaction body of POST /faces/extract/:id/complete: promote every
cluster, then mark the job labeled. -/
def completeExtractionTxn (user : AuthUser) (t : Nat) (faults : WriteFaults) (db : DB) :
    Except ApiError DB :=
  match db.job.clusters.foldlM (promoteCluster user t faults) db.store with
  | .error e => .error e
  | .ok st1 => .ok { store := st1, job := { db.job with isLabeled := true } }

def canComplete (user : AuthUser) (j : ExtractionJob) : Bool :=
  j.uploadedBy == user.uid || user.role == .admin || user.role == .manager
    || user.permissions.canVerifyFaces

/-- POST /faces/extract/:id/complete: permission gate, then the transaction;
any error aborts the transaction and persists nothing. -/
def completeExtraction (user : AuthUser) (t : Nat) (faults : WriteFaults) (db : DB) :
    Except ApiError Unit × DB :=
  if !canComplete user db.job then
    (.error .forbidden, db)
  else
    match completeExtractionTxn user t faults db with
    | .ok db1 => (.ok (), db1)
    | .error e => (.error e, db)

/-- Outcome of the Face Feature Provider call as observed by the background
continuation: a parsed result, a thrown error, or a call that never
completes. -/
inductive ProviderCall
  | returns (success : Bool) (is_valid : Bool) (face_count : Nat)
      (clusters : List (String × List Bytes)) (message : Option String)
  | throws (msg : String)
  | hangs
deriving Repr

/-- The job created synchronously by POST /faces/extract before the background
work begins. -/
def startJob (user : AuthUser) (fileId fileName : String) (kind : MediaKind)
    (sessionId : Option String) : ExtractionJob :=
  { originalFile := { fileId := fileId, fileName := fileName, fileType := kind },
    uploadedBy := user.uid,
    facesCount := 0,
    clusters := [],
    status := .processing,
    processingMessage := "Extracting faces from uploaded file...",
    isLabeled := false,
    sessionId := sessionId.getD fileId }

def mediaKindName : MediaKind → String
  | .image => "image"
  | .video => "video"

def mkCrop (fileId cid : String) (i : Nat) (img : Bytes) : CropFace :=
  { imageUrl := "face_" ++ fileId ++ "_" ++ cid ++ "_" ++ toString i ++ ".jpg",
    imageData := img,
    confidence := 1 }

def mkCluster (fileId : String) (g : String × List Bytes) : Cluster :=
  { clusterId := g.1,
    representativeFace :=
      match g.2 with
      | [] => none
      | img :: _ =>
        some { imageUrl := "face_" ++ fileId ++ "_" ++ g.1 ++ "_representative.jpg",
               imageData := some img },
    faces := g.2.enum.map (fun p => mkCrop fileId g.1 p.1 p.2),
    proposedLabels := [],
    selectedLabel := none }

/-- The detached background continuation of POST /faces/extract: writes the
job's terminal state once the provider call settles; a call that never
settles leaves the job untouched. -/
def backgroundContinuation (call : ProviderCall) (j : ExtractionJob) : ExtractionJob :=
  match call with
  | .hangs => j
  | .throws msg =>
    { j with status := .failed, processingMessage := "Error processing file: " ++ msg }
  | .returns success is_valid face_count clusters message =>
    if !success then
      { j with status := .failed,
               processingMessage := message.getD "Failed to process the file" }
    else if !is_valid || face_count == 0 then
      { j with status := .failed,
               processingMessage := message.getD "No human faces detected in the uploaded file" }
    else
      { j with status := .completed,
               processingMessage := "Successfully extracted " ++ toString face_count
                 ++ " faces from " ++ mediaKindName j.originalFile.fileType,
               facesCount := face_count,
               clusters := clusters.map (mkCluster j.originalFile.fileId) }

/-- The mutating operations a client may run against a persisted job and the
identity store after upload. -/
inductive UserOp
  | proposeFace (user : AuthUser) (faceId : OId) (label : Option String) (t : Nat)
  | verifyOp (user : AuthUser) (req : VerifyRequest) (faceId : OId)
  | proposeCluster (user : AuthUser) (clusterId : String) (label : Option String) (t : Nat)
  | completeOp (user : AuthUser) (t : Nat)

def applyOp (op : UserOp) (db : DB) : DB :=
  match op with
  | .proposeFace u fid l t => { db with store := (proposeFaceLabel u fid l t db.store).2 }
  | .verifyOp u req fid => { db with store := (verifyFace u req fid noFaults db.store).2 }
  | .proposeCluster u cid l t => { db with job := (proposeClusterLabel u cid l t db.job).2 }
  | .completeOp u t => (completeExtraction u t noFaults db).2

/-- Everything of a job other than its label fields and isLabeled flag. -/
def clusterSkeleton (c : Cluster) : String × List CropFace × Option RepFace :=
  (c.clusterId, c.faces, c.representativeFace)

def jobSkeleton (j : ExtractionJob) :
    FileRef × UserId × Nat × JobStatus × String × String ×
      List (String × List CropFace × Option RepFace) :=
  (j.originalFile, j.uploadedBy, j.facesCount, j.status, j.processingMessage, j.sessionId,
   j.clusters.map clusterSkeleton)

structure UserAccount where
  uid : UserId
  name : String
  email : String
  password : String
  role : Role
  permissions : Permissions
  createdLabels : List String
deriving DecidableEq, Repr

/-- The role-derivation hook of UserSchema.pre-save: default permissions per
role. -/
def permissionsForRole : Role → Permissions
  | .admin =>
    { canVerifyFaces := true, canManageUsers := true,
      canManageAllFaces := true, canViewAllData := true }
  | .manager =>
    { canVerifyFaces := true, canManageUsers := false,
      canManageAllFaces := true, canViewAllData := true }
  | .user =>
    { canVerifyFaces := false, canManageUsers := false,
      canManageAllFaces := false, canViewAllData := false }

structure UserDB where
  users : List UserAccount
  nextId : Nat
deriving DecidableEq, Repr

/-- POST /auth/register: public, unauthenticated; rejects only duplicate
emails, honors the requested role, and derives permissions from it via the
pre-save hook. -/
def register (name email password : String) (role : Option Role) (udb : UserDB) :
    Except ApiError UserAccount × UserDB :=
  if udb.users.any (fun u => u.email == email) then
    (.error .badRequest, udb)
  else
    let r := role.getD .user
    let acct : UserAccount :=
      { uid := udb.nextId, name := name, email := email, password := password,
        role := r, permissions := permissionsForRole r, createdLabels := [] }
    (.ok acct, { users := udb.users ++ [acct], nextId := udb.nextId + 1 })

/-- A cluster the completion loop actually promotes: it has a selected label
and representative crop data. -/
def promotable (c : Cluster) : Bool :=
  c.selectedLabel.isSome &&
    (match c.representativeFace with
     | some rep => rep.imageData.isSome
     | none => false)

/-- A cluster whose selected label already names an existing Employee, or an
existing Visitor whose faceId slot is populated; unlabeled clusters resolve
trivially. -/
def labelResolves (st : Store) (c : Cluster) : Bool :=
  match c.selectedLabel with
  | none => true
  | some l =>
    st.employees.any (fun e => e.name == l) ||
      st.visitors.any (fun v => v.name == l && v.faceId.isSome)

section Fixtures

def adminUser : AuthUser :=
  { uid := 1, role := .admin, permissions := permissionsForRole .admin }

def basicVerifier : AuthUser :=
  { uid := 2, role := .user,
    permissions := { canVerifyFaces := true, canManageUsers := false,
                     canManageAllFaces := false, canViewAllData := false } }

def uploaderUser : AuthUser :=
  { uid := 3, role := .user, permissions := permissionsForRole .user }

def strangerUser : AuthUser :=
  { uid := 4, role := .user, permissions := permissionsForRole .user }

def sampleFace : Face :=
  { fid := 10, primaryImage := none, additionalImages := [],
    personType := .unknown, personId := 0, active := true,
    verificationStatus := .unverified, uploadedBy := some 3,
    verifiedBy := none, verificationNote := "",
    proposedLabels := [], selectedLabel := none }

def sampleStore : Store :=
  { faces := [sampleFace], employees := [], visitors := [], nextId := 20 }

def sampleCluster : Cluster :=
  { clusterId := "0",
    faces := [{ imageUrl := "u0", imageData := 7, confidence := 1 }],
    representativeFace := some { imageUrl := "r0", imageData := some 7 },
    proposedLabels := [], selectedLabel := some "Alice" }

def sampleJob : ExtractionJob :=
  { originalFile := { fileId := "f", fileName := "n.jpg", fileType := .image },
    uploadedBy := 3, facesCount := 1, clusters := [sampleCluster],
    status := .completed, processingMessage := "done", isLabeled := false,
    sessionId := "s" }

def sampleDB : DB :=
  { store := { faces := [], employees := [], visitors := [], nextId := 0 },
    job := sampleJob }

/-- State persisted by a first successful completion run on sampleDB. -/
def sampleDBLabeled : DB := (completeExtraction adminUser 0 noFaults sampleDB).2

end Fixtures

/-- C1, counterexample: the completion route has no isLabeled guard. On a job
already completed once (isLabeled = true, with the Visitor "Alice" persisted),
a second authorized call returns success but re-runs promotion and appends a
second Face for the same cluster, so the Face set after the second call
differs from the set after the first. -/
theorem completeExtraction_second_call_duplicates_faces :
    sampleDBLabeled.job.isLabeled = true ∧
    (completeExtraction adminUser 1 noFaults sampleDBLabeled).1 = .ok () ∧
    sampleDBLabeled.store.faces.length = 1 ∧
    (completeExtraction adminUser 1 noFaults sampleDBLabeled).2.store.faces.length = 2 := by
  exact ⟨rfl, rfl, rfl, rfl⟩

/-- C3, counterexample: an admin proposer (privileged in every sense) proposes
a label on a Face; the proposal is recorded but the Face's selectedLabel is
not overwritten — the face-label route never writes selectedLabel. -/
theorem proposeFaceLabel_privileged_leaves_selectedLabel :
    isPrivileged adminUser = true ∧
    (proposeFaceLabel adminUser 10 (some "Alice") 5 sampleStore).1 = .ok () ∧
    (proposeFaceLabel adminUser 10 (some "Alice") 5 sampleStore).2.faces.map
        (fun f => f.proposedLabels)
      = [[{ label := "Alice", proposedBy := 1, proposedAt := 5, confidence := 1 }]] ∧
    (proposeFaceLabel adminUser 10 (some "Alice") 5 sampleStore).2.faces.map
        (fun f => f.selectedLabel) = [none] := by
  exact ⟨rfl, rfl, rfl, rfl⟩

/-- C7, code evaluated at the failing input: completing sampleDB (one cluster
labeled "Alice", no existing person of that name) creates Visitor 1 and Face 2;
the Face points at the Visitor, but the Visitor's faceId stays the placeholder
id 0 generated before the Face existed — the guarded back-link update never
runs, so bidirectional consistency fails. -/
theorem completeExtraction_visitor_faceId_dangling :
    (completeExtraction adminUser 0 noFaults sampleDB).1 = .ok () ∧
    sampleDBLabeled.store.faces.map (fun f => (f.fid, f.personType, f.personId))
      = [(2, PersonType.visitor, 1)] ∧
    sampleDBLabeled.store.visitors.map (fun v => (v.vid, v.name, v.faceId))
      = [(1, "Alice", some 0)] ∧
    sampleDBLabeled.store.visitors.map (fun v => v.faceId)
      ≠ sampleDBLabeled.store.faces.map (fun f => some f.fid) := by
  exact ⟨rfl, rfl, rfl, by decide⟩

/-- C8, counterexample: a plain user holding only canVerifyFaces — not the
uploader, not admin or manager, without canViewAllData — is allowed to
propose: the route also accepts canVerifyFaces holders, so the operation
succeeds and records the proposal instead of failing Forbidden. -/
theorem proposeFaceLabel_verifier_not_forbidden :
    basicVerifier.role = .user ∧
    basicVerifier.permissions.canViewAllData = false ∧
    sampleFace.uploadedBy ≠ some basicVerifier.uid ∧
    (proposeFaceLabel basicVerifier 10 (some "Bob") 4 sampleStore).1 = .ok () ∧
    (proposeFaceLabel basicVerifier 10 (some "Bob") 4 sampleStore).2.faces.map
        (fun f => f.proposedLabels)
      = [[{ label := "Bob", proposedBy := 2, proposedAt := 4, confidence := 1 }]] := by
  exact ⟨rfl, rfl, by decide, rfl, rfl⟩

def hungJob : ExtractionJob := startJob uploaderUser "f1" "clip.mp4" .video none

/-- C9, counterexample: nothing bounds the provider call. When the call never
settles, the background continuation performs no write at all: the job keeps
status processing and its initial message forever, instead of transitioning
to failed with a timeout-specific message. -/
theorem backgroundContinuation_hang_stays_processing :
    backgroundContinuation .hangs hungJob = hungJob ∧
    hungJob.status = .processing ∧
    hungJob.processingMessage = "Extracting faces from uploaded file..." := by
  refine ⟨rfl, rfl, rfl⟩

theorem clusterSkeleton_clusterLabelUpdate (u : AuthUser) (l : String) (t : Nat) (c : Cluster) :
    clusterSkeleton (clusterLabelUpdate u l t c) = clusterSkeleton c := by
  unfold clusterLabelUpdate clusterSkeleton
  split <;> rfl

theorem updateFirstCluster_skeleton (g : Cluster → Cluster)
    (hg : ∀ c, clusterSkeleton (g c) = clusterSkeleton c) (cid : String) :
    ∀ cs cs', updateFirstCluster g cid cs = some cs' →
      cs'.map clusterSkeleton = cs.map clusterSkeleton := by
  intro cs
  induction cs with
  | nil => intro cs' h; simp [updateFirstCluster] at h
  | cons c rest ih =>
    intro cs' h
    rw [updateFirstCluster] at h
    split at h
    · cases h
      simp [List.map_cons, hg c]
    · cases hrec : updateFirstCluster g cid rest with
      | none => rw [hrec] at h; cases h
      | some cs1 =>
        rw [hrec] at h
        cases h
        simp [List.map_cons, ih cs1 hrec]

theorem proposeClusterLabel_jobSkeleton (u : AuthUser) (cid : String) (l : Option String)
    (t : Nat) (j : ExtractionJob) :
    jobSkeleton (proposeClusterLabel u cid l t j).2 = jobSkeleton j := by
  cases l with
  | none => rfl
  | some s =>
    simp only [proposeClusterLabel]
    split
    · rfl
    · cases h : updateFirstCluster (clusterLabelUpdate u s t) cid j.clusters with
      | none => simp [h]
      | some cs =>
        simp only [h]
        unfold jobSkeleton
        simp [updateFirstCluster_skeleton _ (clusterSkeleton_clusterLabelUpdate u s t) cid
          j.clusters cs h]

theorem completeExtraction_job (u : AuthUser) (t : Nat) (faults : WriteFaults) (db : DB) :
    (completeExtraction u t faults db).2.job = db.job ∨
    (completeExtraction u t faults db).2.job = { db.job with isLabeled := true } := by
  unfold completeExtraction
  split
  · exact .inl rfl
  · cases h : completeExtractionTxn u t faults db with
    | error e => simp [h]
    | ok db1 =>
      simp only [h]
      unfold completeExtractionTxn at h
      cases h2 : db.job.clusters.foldlM (promoteCluster u t faults) db.store with
      | error e => rw [h2] at h; cases h
      | ok st1 =>
        rw [h2] at h
        cases h
        exact .inr rfl

theorem applyOp_jobSkeleton (op : UserOp) (db : DB) :
    jobSkeleton (applyOp op db).job = jobSkeleton db.job := by
  cases op with
  | proposeFace u fid l t => rfl
  | verifyOp u req fid => rfl
  | proposeCluster u cid l t => exact proposeClusterLabel_jobSkeleton u cid l t db.job
  | completeOp u t =>
    show jobSkeleton (completeExtraction u t noFaults db).2.job = jobSkeleton db.job
    rcases completeExtraction_job u t noFaults db with h | h
    · rw [h]
    · rw [h]; rfl

theorem applyOp_job_status (op : UserOp) (db : DB) :
    (applyOp op db).job.status = db.job.status :=
  congrArg (fun x => x.2.2.2.1) (applyOp_jobSkeleton op db)

theorem foldOps_job_status (ops : List UserOp) (db : DB) :
    (ops.foldl (fun d o => applyOp o d) db).job.status = db.job.status := by
  induction ops generalizing db with
  | nil => rfl
  | cons o rest ih => rw [List.foldl_cons, ih, applyOp_job_status]

/-- C6: a job starts in processing; the background continuation either leaves
the job untouched or moves it to a terminal status (completed or failed); and
every post-upload client operation — face or cluster proposals, verification,
completion — preserves the job's status and its whole non-label skeleton
(original file, uploader, face count, message, session and cluster contents),
so terminal states change only in label fields and isLabeled, and over any
operation sequence the status never moves again. -/
theorem job_status_transition_discipline :
    (∀ u fileId fileName kind sid, (startJob u fileId fileName kind sid).status = .processing) ∧
    (∀ call j, backgroundContinuation call j = j ∨
      (backgroundContinuation call j).status = .completed ∨
      (backgroundContinuation call j).status = .failed) ∧
    (∀ op db, jobSkeleton (applyOp op db).job = jobSkeleton db.job) ∧
    (∀ (ops : List UserOp) (db : DB),
      (ops.foldl (fun d o => applyOp o d) db).job.status = db.job.status) := by
  refine ⟨fun _ _ _ _ _ => rfl, ?_, applyOp_jobSkeleton, foldOps_job_status⟩
  intro call j
  cases call with
  | hangs => exact .inl rfl
  | throws m => exact .inr (.inr rfl)
  | returns s v fc cs m =>
    simp only [backgroundContinuation]
    split
    · exact .inr (.inr rfl)
    · split
      · exact .inr (.inr rfl)
      · exact .inr (.inl rfl)

/-- C9 amended: the provider call is not bounded by any timeout. The
continuation reaches failed only when the call itself settles — with a
provider-reported failure, an invalid or empty result, or a thrown error —
always carrying the provider-derived message; a call that never settles
leaves the job untouched in processing indefinitely. -/
theorem backgroundContinuation_no_timeout :
    (∀ j, backgroundContinuation .hangs j = j) ∧
    (∀ j m, (backgroundContinuation (.throws m) j).status = .failed ∧
      (backgroundContinuation (.throws m) j).processingMessage
        = "Error processing file: " ++ m) ∧
    (∀ j v fc cs m, (backgroundContinuation (.returns false v fc cs m) j).status = .failed ∧
      (backgroundContinuation (.returns false v fc cs m) j).processingMessage
        = m.getD "Failed to process the file") ∧
    (∀ j fc cs m, (backgroundContinuation (.returns true false fc cs m) j).status = .failed) ∧
    (∀ j v cs m, (backgroundContinuation (.returns true v 0 cs m) j).status = .failed) ∧
    (∀ j fc cs m,
      (backgroundContinuation (.returns true true (fc + 1) cs m) j).status = .completed) := by
  refine ⟨fun j => rfl, fun j m => ⟨rfl, rfl⟩, fun j v fc cs m => ⟨rfl, rfl⟩,
    fun j fc cs m => rfl, ?_, fun j fc cs m => rfl⟩
  intro j v cs m
  cases v <;> rfl

/-- C4: verifying with decision verified and no selectedLabel fails with
MissingLabel before any write is committed: the store is returned unchanged,
so the Face's persisted verificationStatus is exactly what it was, despite
the in-memory mutations made before the check. -/
theorem verifyFace_missing_label_unchanged (u : AuthUser) (req : VerifyRequest) (fid : OId)
    (faults : WriteFaults) (st : Store) (face : Face)
    (hperm : u.permissions.canVerifyFaces = true)
    (hstatus : req.status = some Decision.verified)
    (hsel : req.selectedLabel = none)
    (hfind : st.faces.find? (fun f => f.fid == fid) = some face) :
    verifyFace u req fid faults st = (.error .missingLabel, st) ∧
    ((verifyFace u req fid faults st).2.faces.find? (fun f => f.fid == fid)).map
        (fun f => f.verificationStatus)
      = some face.verificationStatus := by
  have htxn : verifyFaceTxn u req fid faults st = .error .missingLabel := by
    simp only [verifyFaceTxn, hstatus, hfind, promoteDecision, hsel]
  have hroute : verifyFace u req fid faults st = (.error .missingLabel, st) := by
    simp only [verifyFace, hperm, Bool.not_true, Bool.false_eq_true, if_false, htxn]
  refine ⟨hroute, ?_⟩
  rw [hroute]
  simp [hfind]

/-- C10: the public registration operation takes no authenticated actor; for
any email not already registered it honors the requested role verbatim
(admin and manager included) and the pre-save hook immediately derives the
full elevated permission set of that role for the created user. -/
theorem register_honors_requested_role (name email pw : String) (role : Option Role)
    (udb : UserDB)
    (h : udb.users.any (fun u => u.email == email) = false) :
    (register name email pw role udb).1
      = .ok { uid := udb.nextId, name := name, email := email, password := pw,
              role := role.getD .user, permissions := permissionsForRole (role.getD .user),
              createdLabels := [] } ∧
    (register name email pw role udb).2.users
      = udb.users ++ [{ uid := udb.nextId, name := name, email := email, password := pw,
                        role := role.getD .user,
                        permissions := permissionsForRole (role.getD .user),
                        createdLabels := [] }] ∧
    permissionsForRole .admin
      = { canVerifyFaces := true, canManageUsers := true,
          canManageAllFaces := true, canViewAllData := true } ∧
    permissionsForRole .manager
      = { canVerifyFaces := true, canManageUsers := false,
          canManageAllFaces := true, canViewAllData := true } := by
  refine ⟨?_, ?_, rfl, rfl⟩ <;> simp only [register, h, Bool.false_eq_true, if_false]

/-- C8 amended: a proposer who is not the uploader, not admin or manager, and
holds neither canViewAllData nor canVerifyFaces is rejected with Forbidden
and no proposal is recorded; canVerifyFaces holders are additionally let
through by the route, beyond the read-access rule the claim describes. -/
theorem proposeFaceLabel_forbidden (u : AuthUser) (fid : OId) (l : String) (t : Nat)
    (st : Store) (face : Face)
    (hfind : st.faces.find? (fun f => f.fid == fid) = some face)
    (hup : face.uploadedBy ≠ some u.uid)
    (hadmin : u.role ≠ .admin) (hmgr : u.role ≠ .manager)
    (hview : u.permissions.canViewAllData = false)
    (hverify : u.permissions.canVerifyFaces = false) :
    proposeFaceLabel u fid (some l) t st = (.error .forbidden, st) := by
  have hacc : canUserAccessFace u face = false := by
    unfold canUserAccessFace
    rw [beq_eq_false_iff_ne.mpr hadmin, beq_eq_false_iff_ne.mpr hmgr, hview]
    simp only [Bool.or_false, Bool.false_eq_true, if_false]
    cases hcase : face.uploadedBy with
    | none => rfl
    | some uploader =>
      have : uploader ≠ u.uid := by
        intro hcontra
        exact hup (hcase.trans (by rw [hcontra]))
      simp [this]
  simp [proposeFaceLabel, hfind, hacc, hverify]

theorem verifyFace_error_rollback (u : AuthUser) (req : VerifyRequest) (fid : OId)
    (faults : WriteFaults) (st : Store) (e : ApiError)
    (h : (verifyFace u req fid faults st).1 = .error e) :
    (verifyFace u req fid faults st).2 = st := by
  unfold verifyFace at h ⊢
  by_cases hb : (!u.permissions.canVerifyFaces) = true
  · rw [if_pos hb]
  · rw [if_neg hb] at h ⊢
    cases h1 : verifyFaceTxn u req fid faults st with
    | ok st1 => rw [h1] at h; simp at h
    | error e2 => rfl

theorem completeExtraction_error_rollback (u : AuthUser) (t : Nat) (faults : WriteFaults)
    (db : DB) (e : ApiError)
    (h : (completeExtraction u t faults db).1 = .error e) :
    (completeExtraction u t faults db).2 = db := by
  unfold completeExtraction at h ⊢
  by_cases hb : (!canComplete u db.job) = true
  · rw [if_pos hb]
  · rw [if_neg hb] at h ⊢
    cases h1 : completeExtractionTxn u t faults db with
    | ok db1 => rw [h1] at h; simp at h
    | error e2 => rfl

theorem promoteCluster_faceSaveFault (u : AuthUser) (t : Nat) (st : Store) (c : Cluster)
    (hp : promotable c = true) :
    promoteCluster u t { personSaveFails := false, faceSaveFails := true } st c
      = .error .transactionAborted := by
  unfold promotable at hp
  cases hl : c.selectedLabel with
  | none => rw [hl] at hp; simp at hp
  | some l =>
    cases hrep : c.representativeFace with
    | none => rw [hrep] at hp; simp at hp
    | some rep =>
      cases hd : rep.imageData with
      | none => rw [hl, hrep] at hp; simp [hd] at hp
      | some d =>
        simp only [promoteCluster, hl, hrep, hd]
        cases he : st.employees.find? (fun x => x.name == l) with
        | some emp => simp [resolvePerson, he]
        | none =>
          cases hv : st.visitors.find? (fun x => x.name == l) with
          | some vis => simp [resolvePerson, he, hv]
          | none => simp [resolvePerson, he, hv]

/-- C2: promotion is atomic. Any error outcome of VerifyFace or
CompleteExtractionLabeling returns the state unchanged; in particular, with a
fault injected into the Face write after person creation has succeeded, both
operations report TransactionAborted and persist neither the Person, nor the
Face, nor the job isLabeled flag. -/
theorem promotion_atomicity :
    (∀ u req fid faults st e, (verifyFace u req fid faults st).1 = .error e →
        (verifyFace u req fid faults st).2 = st) ∧
    (∀ u t faults db e, (completeExtraction u t faults db).1 = .error e →
        (completeExtraction u t faults db).2 = db) ∧
    (∀ u req fid st face l,
        u.permissions.canVerifyFaces = true →
        req.status = some Decision.verified →
        req.selectedLabel = some l →
        req.createNewPerson = true →
        (req.personType = some PersonType.employee ∨ req.personType = some PersonType.visitor) →
        st.faces.find? (fun f => f.fid == fid) = some face →
        verifyFace u req fid { personSaveFails := false, faceSaveFails := true } st
          = (.error .transactionAborted, st)) ∧
    (∀ u t db c rest,
        canComplete u db.job = true →
        db.job.clusters = c :: rest →
        promotable c = true →
        completeExtraction u t { personSaveFails := false, faceSaveFails := true } db
          = (.error .transactionAborted, db)) := by
  refine ⟨verifyFace_error_rollback, completeExtraction_error_rollback, ?_, ?_⟩
  · intro u req fid st face l hperm hstatus hsel hcreate hpt hfind
    have htxn : verifyFaceTxn u req fid { personSaveFails := false, faceSaveFails := true } st
        = .error .transactionAborted := by
      simp only [verifyFaceTxn, hstatus, hfind, promoteDecision, hsel, hcreate]
      rcases hpt with hpt | hpt <;> simp [hpt]
    simp only [verifyFace, hperm, Bool.not_true, Bool.false_eq_true, if_false, htxn]
  · intro u t db c rest hauth hclusters hp
    have hstep : promoteCluster u t { personSaveFails := false, faceSaveFails := true } db.store c
        = .error .transactionAborted := promoteCluster_faceSaveFault u t db.store c hp
    have htxn : completeExtractionTxn u t { personSaveFails := false, faceSaveFails := true } db
        = .error .transactionAborted := by
      unfold completeExtractionTxn
      rw [hclusters, List.foldlM_cons, hstep]
      rfl
    simp only [completeExtraction, hauth, Bool.not_true, Bool.false_eq_true, if_false, htxn]

theorem replaceFirstFace_map_selectedLabel (faces : List Face) (fid : OId) (face face1 : Face)
    (hfind : faces.find? (fun f => f.fid == fid) = some face)
    (hsel : face1.selectedLabel = face.selectedLabel) :
    (replaceFirstFace fid face1 faces).map (fun f => f.selectedLabel)
      = faces.map (fun f => f.selectedLabel) := by
  induction faces with
  | nil => exact Option.noConfusion hfind
  | cons f rest ih =>
    by_cases hc : (f.fid == fid) = true
    · rw [List.find?_cons_of_pos rest hc] at hfind
      injection hfind with hface
      subst hface
      simp [replaceFirstFace, hc, hsel]
    · rw [List.find?_cons_of_neg rest hc] at hfind
      simp [replaceFirstFace, hc, ih hfind]

theorem updateFirstCluster_found (g : Cluster → Cluster) (cid : String) :
    ∀ cs cs', updateFirstCluster g cid cs = some cs' →
      ∃ c, c ∈ cs ∧ g c ∈ cs' ∧ (c.clusterId == cid) = true := by
  intro cs
  induction cs with
  | nil => intro cs' h; exact Option.noConfusion h
  | cons c rest ih =>
    intro cs' h
    by_cases hc : (c.clusterId == cid) = true
    · rw [updateFirstCluster, if_pos hc] at h
      injection h with h2
      subst h2
      exact ⟨c, List.mem_cons_self c rest, List.mem_cons_self _ _, hc⟩
    · rw [updateFirstCluster, if_neg hc] at h
      cases hrec : updateFirstCluster g cid rest with
      | none => rw [hrec] at h; cases h
      | some cs1 =>
        rw [hrec] at h
        injection h with h2
        obtain ⟨c0, hmem, hgc, hcid⟩ := ih cs1 hrec
        exact ⟨c0, List.mem_cons_of_mem c hmem, h2 ▸ List.mem_cons_of_mem c hgc, hcid⟩

/-- C3 amended: privileged proposals short-circuit consensus only on clusters:
the cluster-label route overwrites the target cluster's selectedLabel for
admin, manager or canVerifyFaces proposers, while the face-label route never
writes any Face's selectedLabel, privileged proposer or not. -/
theorem selectedLabel_shortcircuit_cluster_only :
    (∀ u fid l t st,
        ((proposeFaceLabel u fid l t st).2.faces.map (fun f => f.selectedLabel))
          = st.faces.map (fun f => f.selectedLabel)) ∧
    (∀ u cid l t j j1, isPrivileged u = true →
        proposeClusterLabel u cid (some l) t j = (.ok (), j1) →
        ∃ c, c ∈ j1.clusters ∧ c.clusterId = cid ∧ c.selectedLabel = some l) := by
  constructor
  · intro u fid l t st
    cases l with
    | none => rfl
    | some s =>
      cases hfind : st.faces.find? (fun f => f.fid == fid) with
      | none => simp [proposeFaceLabel, hfind]
      | some face =>
        by_cases hacc : (!canUserAccessFace u face && !u.permissions.canVerifyFaces) = true
        · simp [proposeFaceLabel, hfind, hacc]
        · simp only [proposeFaceLabel, hfind]
          rw [if_neg hacc]
          exact replaceFirstFace_map_selectedLabel st.faces fid face _ hfind rfl
  · intro u cid l t j j1 hpriv h
    simp only [proposeClusterLabel] at h
    split at h
    · simp at h
    · cases hupd : updateFirstCluster (clusterLabelUpdate u l t) cid j.clusters with
      | none => rw [hupd] at h; simp at h
      | some cs =>
        rw [hupd] at h
        simp only [Prod.mk.injEq, true_and] at h
        subst h
        obtain ⟨c, hmem, hgc, hcid⟩ :=
          updateFirstCluster_found (clusterLabelUpdate u l t) cid j.clusters cs hupd
        have hred : clusterLabelUpdate u l t c
            = { c with proposedLabels := upsertProposal c.proposedLabels u.uid l t,
                       selectedLabel := some l } := by
          simp [clusterLabelUpdate, hpriv]
        refine ⟨clusterLabelUpdate u l t c, hgc, ?_, ?_⟩
        · rw [hred]
          exact eq_of_beq hcid
        · rw [hred]

/-- At most one proposal entry per proposing user. -/
def proposersNodup (ps : List Proposal) : Prop :=
  (ps.map (fun p => p.proposedBy)).Nodup

instance (ps : List Proposal) : Decidable (proposersNodup ps) :=
  inferInstanceAs (Decidable (List.Nodup (ps.map (fun (p : Proposal) => p.proposedBy))))

theorem upsertProposal_proposers (ps : List Proposal) (u : UserId) (l : String) (t : Nat) :
    (upsertProposal ps u l t).map (fun p => p.proposedBy)
      = if ps.any (fun p => p.proposedBy == u) then ps.map (fun p => p.proposedBy)
        else ps.map (fun p => p.proposedBy) ++ [u] := by
  induction ps with
  | nil => simp [upsertProposal]
  | cons p rest ih =>
    by_cases hc : (p.proposedBy == u) = true
    · simp [upsertProposal, hc, List.any_cons]
    · by_cases ha : rest.any (fun q => q.proposedBy == u) = true
      · simp [upsertProposal, hc, List.any_cons, ha, ih]
      · simp [upsertProposal, hc, List.any_cons, ha, ih]

theorem upsertProposal_nodup (ps : List Proposal) (u : UserId) (l : String) (t : Nat)
    (h : proposersNodup ps) : proposersNodup (upsertProposal ps u l t) := by
  unfold proposersNodup at *
  rw [upsertProposal_proposers]
  by_cases ha : ps.any (fun p => p.proposedBy == u) = true
  · simp [ha, h]
  · have hu : u ∉ ps.map (fun p => p.proposedBy) := by
      intro hmem
      obtain ⟨p, hp, hpu⟩ := List.mem_map.mp hmem
      exact ha (List.any_eq_true.mpr ⟨p, hp, by simp [hpu]⟩)
    simp only [ha, if_false, Bool.false_eq_true]
    exact List.Nodup.append h (List.nodup_singleton u)
      (by intro x hx hxa; rw [List.mem_singleton.mp hxa] at hx; exact hu hx)

theorem countP_proposers (xs : List Proposal) (u : UserId) :
    xs.countP (fun p => p.proposedBy == u) = (xs.map (fun p => p.proposedBy)).count u := by
  rw [List.count, List.countP_map]
  rfl

theorem upsertProposal_count_one (ps : List Proposal) (u : UserId) (l : String) (t : Nat)
    (h : proposersNodup ps) :
    (upsertProposal ps u l t).countP (fun p => p.proposedBy == u) = 1 := by
  unfold proposersNodup at h
  rw [countP_proposers, upsertProposal_proposers]
  by_cases ha : ps.any (fun p => p.proposedBy == u) = true
  · obtain ⟨p, hp, hpu⟩ := List.any_eq_true.mp ha
    have hmem : u ∈ ps.map (fun p => p.proposedBy) :=
      List.mem_map.mpr ⟨p, hp, eq_of_beq hpu⟩
    simp only [ha, if_true]
    exact List.count_eq_one_of_mem h hmem
  · have hu : u ∉ ps.map (fun p => p.proposedBy) := by
      intro hmem
      obtain ⟨p, hp, hpu⟩ := List.mem_map.mp hmem
      exact ha (List.any_eq_true.mpr ⟨p, hp, by simp [hpu]⟩)
    simp only [ha, if_false, Bool.false_eq_true]
    rw [List.count_append, List.count_eq_zero_of_not_mem hu]
    simp

theorem find?_cons_true {α : Type} (pred : α → Bool) (a : α) (l : List α) (h : pred a = true) :
    (a :: l).find? pred = some a := by
  unfold List.find?
  rw [h]

theorem find?_cons_false {α : Type} (pred : α → Bool) (a : α) (l : List α) (h : pred a = false) :
    (a :: l).find? pred = l.find? pred := by
  conv_lhs => unfold List.find?
  rw [h]

theorem upsertProposal_replaces (ps : List Proposal) (u : UserId) (l : String) (t : Nat)
    (h : ps.any (fun p => p.proposedBy == u) = true) :
    (upsertProposal ps u l t).length = ps.length ∧
    (upsertProposal ps u l t).find? (fun p => p.proposedBy == u)
      = (ps.find? (fun p => p.proposedBy == u)).map
          (fun p => { p with label := l, proposedAt := t }) := by
  induction ps with
  | nil => simp at h
  | cons p rest ih =>
    by_cases hc : (p.proposedBy == u) = true
    · refine ⟨by simp [upsertProposal, hc], ?_⟩
      have hc2 : (({ p with label := l, proposedAt := t } : Proposal).proposedBy == u)
          = true := hc
      simp only [upsertProposal, hc, if_true]
      rw [find?_cons_true (fun q => q.proposedBy == u) _ rest hc2,
        find?_cons_true (fun q => q.proposedBy == u) p rest hc]
      rfl
    · have ha : rest.any (fun q => q.proposedBy == u) = true := by
        rcases List.any_eq_true.mp h with ⟨q, hq, hqu⟩
        rcases List.mem_cons.mp hq with rfl | hq2
        · exact absurd hqu hc
        · exact List.any_eq_true.mpr ⟨q, hq2, hqu⟩
      obtain ⟨ih1, ih2⟩ := ih ha
      refine ⟨by simp [upsertProposal, hc, ih1], ?_⟩
      simp only [upsertProposal, hc, if_false, Bool.false_eq_true]
      have hcf : (p.proposedBy == u) = false := by simpa using hc
      rw [find?_cons_false (fun q => q.proposedBy == u) p (upsertProposal rest u l t) hcf,
        find?_cons_false (fun q => q.proposedBy == u) p rest hcf]
      exact ih2

theorem replaceFirstFace_mem (fid : OId) (face1 : Face) :
    ∀ faces f, f ∈ replaceFirstFace fid face1 faces → f = face1 ∨ f ∈ faces := by
  intro faces
  induction faces with
  | nil => intro f h; exact .inr h
  | cons g rest ih =>
    intro f h
    by_cases hc : (g.fid == fid) = true
    · simp only [replaceFirstFace] at h
      rw [if_pos hc] at h
      rcases List.mem_cons.mp h with h1 | h1
      · exact .inl h1
      · exact .inr (List.mem_cons_of_mem g h1)
    · simp only [replaceFirstFace] at h
      rw [if_neg hc] at h
      rcases List.mem_cons.mp h with h1 | h1
      · exact .inr (h1 ▸ List.mem_cons_self g rest)
      · rcases ih f h1 with h2 | h2
        · exact .inl h2
        · exact .inr (List.mem_cons_of_mem g h2)

theorem proposeFaceLabel_inv (u : AuthUser) (fid : OId) (l : Option String) (t : Nat)
    (st : Store) (hinv : ∀ f ∈ st.faces, proposersNodup f.proposedLabels) :
    ∀ f ∈ (proposeFaceLabel u fid l t st).2.faces, proposersNodup f.proposedLabels := by
  cases l with
  | none => exact hinv
  | some s =>
    cases hfind : st.faces.find? (fun f => f.fid == fid) with
    | none => simp only [proposeFaceLabel, hfind]; exact hinv
    | some face =>
      by_cases hacc : (!canUserAccessFace u face && !u.permissions.canVerifyFaces) = true
      · simp only [proposeFaceLabel, hfind]
        rw [if_pos hacc]
        exact hinv
      · simp only [proposeFaceLabel, hfind]
        rw [if_neg hacc]
        intro f hf
        rcases replaceFirstFace_mem fid _ st.faces f hf with h1 | h1
        · subst h1
          exact upsertProposal_nodup _ _ _ _ (hinv face (List.mem_of_find?_eq_some hfind))
        · exact hinv f h1

theorem updateFirstCluster_mem (g : Cluster → Cluster) (cid : String) :
    ∀ cs cs' c', updateFirstCluster g cid cs = some cs' → c' ∈ cs' →
      c' ∈ cs ∨ ∃ c ∈ cs, c' = g c := by
  intro cs
  induction cs with
  | nil => intro cs' c' h; exact Option.noConfusion h
  | cons c rest ih =>
    intro cs' c' h hc'
    by_cases hc : (c.clusterId == cid) = true
    · rw [updateFirstCluster, if_pos hc] at h
      injection h with h2
      subst h2
      rcases List.mem_cons.mp hc' with h1 | h1
      · exact .inr ⟨c, List.mem_cons_self c rest, h1⟩
      · exact .inl (List.mem_cons_of_mem c h1)
    · rw [updateFirstCluster, if_neg hc] at h
      cases hrec : updateFirstCluster g cid rest with
      | none => rw [hrec] at h; exact Option.noConfusion h
      | some cs1 =>
        rw [hrec] at h
        injection h with h2
        subst h2
        rcases List.mem_cons.mp hc' with h1 | h1
        · exact .inl (h1 ▸ List.mem_cons_self c rest)
        · rcases ih cs1 c' hrec h1 with h2 | ⟨c0, hc0, h3⟩
          · exact .inl (List.mem_cons_of_mem c h2)
          · exact .inr ⟨c0, List.mem_cons_of_mem c hc0, h3⟩

theorem clusterLabelUpdate_proposedLabels (u : AuthUser) (l : String) (t : Nat) (c : Cluster) :
    (clusterLabelUpdate u l t c).proposedLabels = upsertProposal c.proposedLabels u.uid l t := by
  simp only [clusterLabelUpdate]
  split <;> rfl

theorem proposeClusterLabel_inv (u : AuthUser) (cid : String) (l : Option String) (t : Nat)
    (j : ExtractionJob) (hinv : ∀ c ∈ j.clusters, proposersNodup c.proposedLabels) :
    ∀ c ∈ (proposeClusterLabel u cid l t j).2.clusters, proposersNodup c.proposedLabels := by
  cases l with
  | none => exact hinv
  | some s =>
    by_cases hacc : (!canAccessJob u j) = true
    · simp only [proposeClusterLabel]
      rw [if_pos hacc]
      exact hinv
    · simp only [proposeClusterLabel]
      rw [if_neg hacc]
      cases hupd : updateFirstCluster (clusterLabelUpdate u s t) cid j.clusters with
      | none => exact hinv
      | some cs =>
        intro c hc
        rcases updateFirstCluster_mem _ cid j.clusters cs c hupd hc with h1 | ⟨c0, hc0, rfl⟩
        · exact hinv c h1
        · unfold proposersNodup
          rw [clusterLabelUpdate_proposedLabels]
          exact upsertProposal_nodup _ _ _ _ (hinv c0 hc0)

structure FaceCall where
  user : AuthUser
  faceId : OId
  label : Option String
  t : Nat

structure ClusterCall where
  user : AuthUser
  clusterId : String
  label : Option String
  t : Nat

/-- Any sequence of face-label proposals applied to the store. -/
def applyFaceCalls (calls : List FaceCall) (st : Store) : Store :=
  calls.foldl (fun s q => (proposeFaceLabel q.user q.faceId q.label q.t s).2) st

/-- Any sequence of cluster-label proposals applied to a job. -/
def applyClusterCalls (calls : List ClusterCall) (j : ExtractionJob) : ExtractionJob :=
  calls.foldl (fun jj q => (proposeClusterLabel q.user q.clusterId q.label q.t jj).2) j

/-- C5: per-proposer slots. When a user already holds a slot, re-proposing
keeps the list length and rewrites that slot's label and timestamp in place;
under the at-most-one-slot invariant an upsert leaves exactly one entry for
the proposer; and the invariant is preserved on every Face and every cluster
across any sequence of proposal operations. -/
theorem proposal_slot_invariant :
    (∀ ps u l t, ps.any (fun p => p.proposedBy == u) = true →
        (upsertProposal ps u l t).length = ps.length ∧
        (upsertProposal ps u l t).find? (fun p => p.proposedBy == u)
          = (ps.find? (fun p => p.proposedBy == u)).map
              (fun p => { p with label := l, proposedAt := t })) ∧
    (∀ ps u l t, proposersNodup ps →
        proposersNodup (upsertProposal ps u l t) ∧
        (upsertProposal ps u l t).countP (fun p => p.proposedBy == u) = 1) ∧
    (∀ calls st, (∀ f ∈ st.faces, proposersNodup f.proposedLabels) →
        ∀ f ∈ (applyFaceCalls calls st).faces, proposersNodup f.proposedLabels) ∧
    (∀ calls j, (∀ c ∈ j.clusters, proposersNodup c.proposedLabels) →
        ∀ c ∈ (applyClusterCalls calls j).clusters, proposersNodup c.proposedLabels) := by
  refine ⟨upsertProposal_replaces,
    fun ps u l t h => ⟨upsertProposal_nodup ps u l t h, upsertProposal_count_one ps u l t h⟩,
    ?_, ?_⟩
  · intro calls
    induction calls with
    | nil => intro st hinv; exact hinv
    | cons q rest ih =>
      intro st hinv
      exact ih _ (proposeFaceLabel_inv q.user q.faceId q.label q.t st hinv)
  · intro calls
    induction calls with
    | nil => intro j hinv; exact hinv
    | cons q rest ih =>
      intro j hinv
      exact ih _ (proposeClusterLabel_inv q.user q.clusterId q.label q.t j hinv)

theorem labelResolves_congr (st1 st : Store) (he : st1.employees = st.employees)
    (hv : st1.visitors = st.visitors) (c : Cluster) :
    labelResolves st1 c = labelResolves st c := by
  unfold labelResolves
  cases c.selectedLabel <;> simp [he, hv]

theorem promoteCluster_resolved (u : AuthUser) (t : Nat) (st : Store) (c : Cluster)
    (h : labelResolves st c = true) :
    ∃ st1, promoteCluster u t noFaults st c = .ok st1 ∧
      st1.employees = st.employees ∧ st1.visitors = st.visitors ∧
      st1.faces.length = st.faces.length + (if promotable c then 1 else 0) := by
  cases hl : c.selectedLabel with
  | none =>
    exact ⟨st, by simp [promoteCluster, hl], rfl, rfl, by simp [promotable, hl]⟩
  | some l =>
    cases hrep : c.representativeFace with
    | none =>
      exact ⟨st, by simp [promoteCluster, hl, hrep], rfl, rfl, by simp [promotable, hl, hrep]⟩
    | some rep =>
      cases hd : rep.imageData with
      | none =>
        exact ⟨st, by simp [promoteCluster, hl, hrep, hd], rfl, rfl,
          by simp [promotable, hl, hrep, hd]⟩
      | some d =>
        have hprom : promotable c = true := by simp [promotable, hl, hrep, hd]
        cases he : st.employees.find? (fun e => e.name == l) with
        | some e =>
          refine ⟨{ st with
              faces := st.faces ++ [mkPromotedFace u t l d c .employee e.eid st.nextId],
              nextId := st.nextId + 1 }, ?_, rfl, rfl, by simp [hprom]⟩
          simp only [promoteCluster, hl, hrep, hd, resolvePerson, he]
          rfl
        | none =>
          have hea : st.employees.any (fun e => e.name == l) = false := by
            cases hx : st.employees.any (fun e => e.name == l) with
            | false => rfl
            | true =>
              obtain ⟨x, hx1, hx2⟩ := List.any_eq_true.mp hx
              exact absurd hx2 (List.find?_eq_none.mp he x hx1)
          have hva : st.visitors.any (fun v => v.name == l && v.faceId.isSome) = true := by
            have h2 := h
            simp only [labelResolves, hl, hea, Bool.false_or] at h2
            exact h2
          cases hv : st.visitors.find? (fun v => v.name == l) with
          | some v =>
            refine ⟨{ st with
                faces := st.faces ++ [mkPromotedFace u t l d c .visitor v.vid st.nextId],
                nextId := st.nextId + 1 }, ?_, rfl, rfl, by simp [hprom]⟩
            simp only [promoteCluster, hl, hrep, hd, resolvePerson, he, hv]
            simp [noFaults, hva]
          | none =>
            obtain ⟨x, hx1, hx2⟩ := List.any_eq_true.mp hva
            obtain ⟨hx3, -⟩ : (x.name == l) = true ∧ x.faceId.isSome = true := by
              simpa using hx2
            exact absurd hx3 (List.find?_eq_none.mp hv x hx1)

theorem foldlM_promote_resolved (u : AuthUser) (t : Nat) :
    ∀ (cs : List Cluster) (st : Store),
      (∀ c ∈ cs, labelResolves st c = true) →
      ∃ st1, cs.foldlM (promoteCluster u t noFaults) st = .ok st1 ∧
        st1.employees = st.employees ∧ st1.visitors = st.visitors ∧
        st1.faces.length = st.faces.length + cs.countP (fun c => promotable c) := by
  intro cs
  induction cs with
  | nil => intro st h; exact ⟨st, rfl, rfl, rfl, by simp⟩
  | cons c rest ih =>
    intro st h
    obtain ⟨st1, hstep, he1, hv1, hf1⟩ :=
      promoteCluster_resolved u t st c (h c (List.mem_cons_self c rest))
    have hres1 : ∀ c2 ∈ rest, labelResolves st1 c2 = true := by
      intro c2 hc2
      rw [labelResolves_congr st1 st he1 hv1]
      exact h c2 (List.mem_cons_of_mem c hc2)
    obtain ⟨st2, hfold, he2, hv2, hf2⟩ := ih st1 hres1
    refine ⟨st2, ?_, he2.trans he1, hv2.trans hv1, ?_⟩
    · rw [List.foldlM_cons, hstep]
      exact hfold
    · rw [hf2, hf1]
      cases hp : promotable c
      · simp [hp, List.countP_cons]
      · simp [hp, List.countP_cons]
        omega

/-- C1 amended: CompleteExtractionLabeling has no isLabeled guard and is not
idempotent on the Face set. A second authorized call returns success and
reprocesses: whenever every labeled cluster's label already resolves to an
existing Employee or linked Visitor — which holds after a successful first
run — no duplicate Person is created (Employee and Visitor sets are
unchanged), but one duplicate Face is appended for every promotable cluster,
and isLabeled stays true. -/
theorem completeExtraction_rerun (u : AuthUser) (t : Nat) (db : DB)
    (hauth : canComplete u db.job = true)
    (hres : ∀ c ∈ db.job.clusters, labelResolves db.store c = true) :
    (completeExtraction u t noFaults db).1 = .ok () ∧
    (completeExtraction u t noFaults db).2.store.employees = db.store.employees ∧
    (completeExtraction u t noFaults db).2.store.visitors = db.store.visitors ∧
    (completeExtraction u t noFaults db).2.store.faces.length
      = db.store.faces.length + db.job.clusters.countP (fun c => promotable c) ∧
    (completeExtraction u t noFaults db).2.job.isLabeled = true := by
  obtain ⟨st1, hfold, he, hv, hf⟩ :=
    foldlM_promote_resolved u t db.job.clusters db.store hres
  have htxn : completeExtractionTxn u t noFaults db
      = .ok { store := st1, job := { db.job with isLabeled := true } } := by
    unfold completeExtractionTxn
    rw [hfold]
  have hroute : completeExtraction u t noFaults db
      = (.ok (), { store := st1, job := { db.job with isLabeled := true } }) := by
    simp only [completeExtraction, hauth, Bool.not_true, Bool.false_eq_true, if_false, htxn]
  rw [hroute]
  exact ⟨rfl, he, hv, hf, rfl⟩

/-- Witness for the amended C1 theorem at the state left by a first
completion run. -/
theorem completeExtraction_rerun_witness :
    (completeExtraction adminUser 1 noFaults sampleDBLabeled).1 = .ok () ∧
    (completeExtraction adminUser 1 noFaults sampleDBLabeled).2.store.employees
      = sampleDBLabeled.store.employees ∧
    (completeExtraction adminUser 1 noFaults sampleDBLabeled).2.store.visitors
      = sampleDBLabeled.store.visitors ∧
    (completeExtraction adminUser 1 noFaults sampleDBLabeled).2.store.faces.length
      = sampleDBLabeled.store.faces.length
        + sampleDBLabeled.job.clusters.countP (fun c => promotable c) ∧
    (completeExtraction adminUser 1 noFaults sampleDBLabeled).2.job.isLabeled = true :=
  completeExtraction_rerun adminUser 1 sampleDBLabeled (by decide) (by decide)

def verifiedReq : VerifyRequest :=
  { status := some .verified, selectedLabel := some "Carl", personType := some .visitor,
    personId := none, note := none, createNewPerson := true }

/-- Witness for the C2 atomicity theorem: a verified decision creating a new
Visitor whose Face write faults, and a completion run whose Face write
faults, each abort without persisting anything. -/
theorem promotion_atomicity_witness :
    (verifyFace basicVerifier verifiedReq 10 { personSaveFails := false, faceSaveFails := true }
        sampleStore).2 = sampleStore ∧
    (completeExtraction adminUser 0 { personSaveFails := false, faceSaveFails := true }
        sampleDB).2 = sampleDB ∧
    verifyFace basicVerifier verifiedReq 10 { personSaveFails := false, faceSaveFails := true }
        sampleStore = (.error .transactionAborted, sampleStore) ∧
    completeExtraction adminUser 0 { personSaveFails := false, faceSaveFails := true } sampleDB
      = (.error .transactionAborted, sampleDB) := by
  have h := promotion_atomicity
  have h3 := h.2.2.1 basicVerifier verifiedReq 10 sampleStore sampleFace "Carl"
    rfl rfl rfl rfl (Or.inr rfl) rfl
  have h4 := h.2.2.2 adminUser 0 sampleDB sampleCluster [] (by decide) rfl (by decide)
  have h1 := h.1 basicVerifier verifiedReq 10
    { personSaveFails := false, faceSaveFails := true } sampleStore .transactionAborted
    (by rw [h3])
  have h2 := h.2.1 adminUser 0 { personSaveFails := false, faceSaveFails := true } sampleDB
    .transactionAborted (by rw [h4])
  exact ⟨h1, h2, h3, h4⟩

/-- Witness for the amended C3 theorem: a face proposal leaves every
selectedLabel in place, and an admin cluster proposal sets the cluster's
selectedLabel. -/
theorem selectedLabel_shortcircuit_witness :
    ((proposeFaceLabel adminUser 10 (some "Z") 1 sampleStore).2.faces.map
        (fun f => f.selectedLabel))
      = sampleStore.faces.map (fun f => f.selectedLabel) ∧
    ∃ c, c ∈ (proposeClusterLabel adminUser "0" (some "Zed") 2 sampleJob).2.clusters ∧
      c.clusterId = "0" ∧ c.selectedLabel = some "Zed" := by
  have h := selectedLabel_shortcircuit_cluster_only
  exact ⟨h.1 adminUser 10 (some "Z") 1 sampleStore,
    h.2 adminUser "0" "Zed" 2 sampleJob _ (by decide) rfl⟩

def missingLabelReq : VerifyRequest :=
  { status := some .verified, selectedLabel := none, personType := none, personId := none,
    note := none, createNewPerson := false }

/-- Witness for the C4 theorem on a concrete unverified face. -/
theorem verifyFace_missing_label_witness :
    verifyFace basicVerifier missingLabelReq 10 noFaults sampleStore
      = (.error .missingLabel, sampleStore) ∧
    ((verifyFace basicVerifier missingLabelReq 10 noFaults sampleStore).2.faces.find?
        (fun f => f.fid == 10)).map (fun f => f.verificationStatus)
      = some sampleFace.verificationStatus :=
  verifyFace_missing_label_unchanged basicVerifier missingLabelReq 10 noFaults sampleStore
    sampleFace rfl rfl rfl rfl

def psExample : List Proposal :=
  [{ label := "A", proposedBy := 7, proposedAt := 0, confidence := 1 }]

def qFace : Face :=
  { sampleFace with
    proposedLabels := [{ label := "Q", proposedBy := 1, proposedAt := 3, confidence := 1 }] }

def qCluster : Cluster :=
  { sampleCluster with
    proposedLabels := [{ label := "Q", proposedBy := 1, proposedAt := 3, confidence := 1 }],
    selectedLabel := some "Q" }

/-- Witness for the C5 theorem: a re-proposal on a one-slot list, and the
faces and clusters produced by concrete proposal sequences. -/
theorem proposal_slot_invariant_witness :
    ((upsertProposal psExample 7 "B" 5).length = psExample.length ∧
      (upsertProposal psExample 7 "B" 5).find? (fun p => p.proposedBy == 7)
        = (psExample.find? (fun p => p.proposedBy == 7)).map
            (fun p => { p with label := "B", proposedAt := 5 })) ∧
    (proposersNodup (upsertProposal psExample 7 "B" 5) ∧
      (upsertProposal psExample 7 "B" 5).countP (fun p => p.proposedBy == 7) = 1) ∧
    proposersNodup qFace.proposedLabels ∧
    proposersNodup qCluster.proposedLabels := by
  have h := proposal_slot_invariant
  exact ⟨h.1 psExample 7 "B" 5 (by decide), h.2.1 psExample 7 "B" 5 (by decide),
    h.2.2.1 [{ user := adminUser, faceId := 10, label := some "Q", t := 3 }] sampleStore
      (by decide) qFace (by decide),
    h.2.2.2 [{ user := adminUser, clusterId := "0", label := some "Q", t := 3 }] sampleJob
      (by decide) qCluster (by decide)⟩

/-- Witness for the amended C8 theorem: a basic non-owner without any of the
four privileges is rejected. -/
theorem proposeFaceLabel_forbidden_witness :
    proposeFaceLabel strangerUser 10 (some "X") 0 sampleStore
      = (.error .forbidden, sampleStore) :=
  proposeFaceLabel_forbidden strangerUser 10 "X" 0 sampleStore sampleFace rfl (by decide)
    (by decide) (by decide) rfl rfl

/-- Witness for the C10 theorem: registering with role admin on an empty user
store yields an admin account with the full elevated permission set. -/
theorem register_honors_requested_role_witness :
    (register "Eve" "eve@example.com" "secret" (some .admin) { users := [], nextId := 0 }).1
      = .ok { uid := 0, name := "Eve", email := "eve@example.com", password := "secret",
              role := .admin, permissions := permissionsForRole .admin,
              createdLabels := [] } ∧
    (register "Eve" "eve@example.com" "secret" (some .admin) { users := [], nextId := 0 }).2.users
      = [] ++ [{ uid := 0, name := "Eve", email := "eve@example.com", password := "secret",
                 role := .admin, permissions := permissionsForRole .admin,
                 createdLabels := [] }] ∧
    permissionsForRole .admin
      = { canVerifyFaces := true, canManageUsers := true,
          canManageAllFaces := true, canViewAllData := true } ∧
    permissionsForRole .manager
      = { canVerifyFaces := true, canManageUsers := false,
          canManageAllFaces := true, canViewAllData := true } :=
  register_honors_requested_role "Eve" "eve@example.com" "secret" (some .admin)
    { users := [], nextId := 0 } (by decide)

end Doorbell
